import Mathlib

/-!
Shallow embedding of the `flight` asset generator (`src/assets/src/main.rs`).

The program builds a vector scene for a four-player board, rasterizes it,
reads the texture back with a 256-byte-aligned row stride, and writes a PNG.
This file embeds the scene generator (`Player::create_scene`, `Cell::draw`,
`Player::draw`) and the readback arithmetic (`render`, lines 83-121).

All coordinates in the source are `f64` values obtained from the integer
constant `128.0` by addition, subtraction and multiplication by small
rationals, plus the triangle incenter which involves the Euclidean length of
a diagonal of a square, i.e. a rational multiple of the square root of 2.
Every coordinate the program ever computes therefore lies in the field
Q(sqrt 2), and all those operations are exact in `f64`-free rational
arithmetic, so points are embedded as pairs over `K = Q(sqrt 2)` represented
as `a + b * sqrt 2` with rational `a`, `b`.
-/

attribute [local semireducible] Rat.add Rat.sub Rat.mul Rat.inv

set_option maxRecDepth 10000

namespace Flight

/-- Integer square root by Newton iteration with explicit fuel (the fuel
bound is never reached: the iteration stops as soon as it no longer
decreases, exactly as in the standard integer Newton method). -/
def sqrtIter (n : ℕ) : ℕ → ℕ → ℕ
  | 0, guess => guess
  | fuel + 1, guess =>
    let next := (guess + n / guess) / 2
    if next < guess then sqrtIter n fuel next else guess

/-- Integer square root (agrees with the usual Newton-method definition). -/
def natSqrt (n : ℕ) : ℕ := if n ≤ 1 then n else sqrtIter n n (n / 2)

/-- Elements of the field Q(sqrt 2): the value `a + b * sqrt 2`. -/
structure K where
  a : ℚ
  b : ℚ
deriving DecidableEq

instance (n : ℕ) : OfNat K n := ⟨⟨(OfNat.ofNat n : ℚ), 0⟩⟩

instance : Add K := ⟨fun x y => ⟨x.a + y.a, x.b + y.b⟩⟩

instance : Sub K := ⟨fun x y => ⟨x.a - y.a, x.b - y.b⟩⟩

instance : Neg K := ⟨fun x => ⟨-x.a, -x.b⟩⟩

instance : Mul K := ⟨fun x y => ⟨x.a * y.a + 2 * x.b * y.b, x.a * y.b + x.b * y.a⟩⟩

/-- Field inverse in Q(sqrt 2): `(a + b√2)⁻¹ = (a - b√2) / (a² - 2b²)`.
For the zero element this returns 0 (the usual convention); the denominator
`a² - 2b²` vanishes only at 0 because sqrt 2 is irrational. -/
def K.inv (x : K) : K :=
  let d := x.a * x.a - 2 * x.b * x.b
  ⟨x.a / d, -x.b / d⟩

instance : Div K := ⟨fun x y => x * y.inv⟩

/-- Embed a rational number into Q(sqrt 2). -/
def K.ofRat (q : ℚ) : K := ⟨q, 0⟩

/-- Exact square root of a rational number, when it is a perfect square. -/
def ratSqrt (q : ℚ) : Option ℚ :=
  if q.num < 0 then none
  else
    let sn := natSqrt q.num.natAbs
    let sd := natSqrt q.den
    if sn * sn = q.num.natAbs ∧ sd * sd = q.den then some ((sn : ℚ) / (sd : ℚ))
    else none

/-- Square root on Q(sqrt 2), exact on the inputs the program produces.
Every distance computed by the embedded code is the length of a vector with
rational coordinates whose squared length is either a perfect rational
square `s²` (axis-aligned edges) or twice one, `2·s²` (diagonals of
squares); in those two cases this returns the true square root `s` resp.
`s·√2`. On other inputs it returns 0, which the embedded program never
relies on. -/
def K.sqrt (x : K) : K :=
  if x.b = 0 then
    match ratSqrt x.a with
    | some s => ⟨s, 0⟩
    | none =>
      match ratSqrt (x.a / 2) with
      | some s => ⟨0, s⟩
      | none => 0
  else 0

/-- A 2D point with coordinates in Q(sqrt 2) (kurbo `Point`). -/
abbrev PtK := K × K

/-- The origin point `Point::ZERO`. -/
def ptZero : PtK := (0, 0)

/-- Euclidean distance between two points (kurbo `Point::distance`). -/
def ptDist (p q : PtK) : K :=
  K.sqrt ((p.1 - q.1) * (p.1 - q.1) + (p.2 - q.2) * (p.2 - q.2))

/-- A triangle with three vertices (kurbo `Triangle`). -/
structure Tri where
  a : PtK
  b : PtK
  c : PtK
deriving DecidableEq

/-- Center of the inscribed circle of a triangle
(kurbo `Triangle::inscribed_circle().center`): the incenter, the side-length
weighted average of the vertices. -/
def Tri.inscribedCenter (t : Tri) : PtK :=
  let ab := ptDist t.a t.b
  let bc := ptDist t.b t.c
  let ac := ptDist t.a t.c
  let per := ab + bc + ac
  ((ab * t.c.1 + bc * t.a.1 + ac * t.b.1) / per,
   (ab * t.c.2 + bc * t.a.2 + ac * t.b.2) / per)

/-- An axis-aligned rectangle (kurbo `Rect`). -/
structure RectK where
  x0 : K
  y0 : K
  x1 : K
  y1 : K
deriving DecidableEq

/-- kurbo `Rect::from_origin_size`. -/
def RectK.fromOriginSize (origin : PtK) (size : K × K) : RectK :=
  ⟨origin.1, origin.2, origin.1 + size.1, origin.2 + size.2⟩

/-- kurbo `Rect::center`. -/
def RectK.center (r : RectK) : PtK :=
  ((r.x0 + r.x1) / 2, (r.y0 + r.y1) / 2)

/-- The colors the scene generator uses (`vello::peniko::color::palette::css`). -/
inductive Color where
  | red
  | yellow
  | blue
  | green
  | white
  | black
deriving DecidableEq

/-- An affine transform as the program constructs it: every transform in the
source is either `Affine::IDENTITY` or `Affine::rotate(θ).then_translate(v)`
with `θ` a rational multiple of π, so it is embedded as a rotation angle
(stored in units of π radians, exactly) together with a translation. -/
structure Affine where
  rot : ℚ
  tx : K
  ty : K
deriving DecidableEq

/-- kurbo `Affine::IDENTITY`. -/
def Affine.IDENTITY : Affine := ⟨0, 0, 0⟩

/-- kurbo `Affine::rotate`; the argument is the angle in units of π radians
(the source passes `PI / 2.0`, `PI`, `PI * 3.0 / 2.0`, i.e. 1/2, 1, 3/2). -/
def Affine.rotate (th : ℚ) : Affine := ⟨th, 0, 0⟩

/-- kurbo `Affine::then_translate`: post-compose with a translation, which
adds to the translation component. -/
def Affine.thenTranslate (m : Affine) (v : PtK) : Affine :=
  ⟨m.rot, m.tx + v.1, m.ty + v.2⟩

/-- An element of a kurbo `BezPath` as the program builds them. -/
inductive PathEl where
  | moveTo (p : PtK)
  | lineTo (p : PtK)
  | closePath
deriving DecidableEq

/-- A shape passed to `Scene::fill` / `Scene::stroke`. -/
inductive Shape where
  | tri (t : Tri)
  | rect (r : RectK)
  | circle (center : PtK) (radius : K)
  | path (els : List PathEl)
deriving DecidableEq

/-- One draw command recorded in the vello `Scene`; `stroke` carries the
stroke width. Every call in the source uses `Fill::NonZero` and no brush
transform, so those arguments are omitted. -/
inductive DrawCmd where
  | fill (affine : Affine) (color : Color) (shape : Shape)
  | stroke (width : ℚ) (affine : Affine) (color : Color) (shape : Shape)
deriving DecidableEq

/-- A vello `Scene`: the ordered list of draw commands, append-only. -/
abbrev Scene := List DrawCmd

/-- `Scene::fill` appends a fill command. -/
def Scene.fill (s : Scene) (affine : Affine) (color : Color) (shape : Shape) :
    Scene :=
  s ++ [DrawCmd.fill affine color shape]

/-- `Scene::stroke` appends a stroke command. -/
def Scene.stroke (s : Scene) (width : ℚ) (affine : Affine) (color : Color)
    (shape : Shape) : Scene :=
  s ++ [DrawCmd.stroke width affine color shape]

/-- The cell kinds (`CellKind` in the source). -/
inductive CellKind where
  | Triangle0
  | Triangle90
  | Triangle180
  | Triangle270
  | VBlock
  | HBlock
deriving DecidableEq

/-- A home-path cell (`Cell` in the source). -/
structure Cell where
  kind : CellKind
  color : Color
  affine : Affine
  origin : PtK
deriving DecidableEq

/-- `Cell::DIM = 128.0`. -/
def Cell.DIM : K := 128

/-- `Cell::DIM_X2 = Cell::DIM * 2.0`. -/
def Cell.DIM_X2 : K := Cell.DIM * 2

/-- `Cell::DIM_X4 = Cell::DIM * 4.0`. -/
def Cell.DIM_X4 : K := Cell.DIM * 4

/-- `Cell::RADIUS = Cell::DIM * 0.35`. -/
def Cell.RADIUS : K := Cell.DIM * K.ofRat (35 / 100)

/-- `Cell::new`. -/
def Cell.new (kind : CellKind) (color : Color) (affine : Affine)
    (origin : PtK) : Cell :=
  ⟨kind, color, affine, origin⟩

/-- The first `match` in `Cell::draw` (main.rs lines 391-417): the triangle
shape of a triangle-kind cell, `None` for blocks. -/
def Cell.triShape (c : Cell) : Option Tri :=
  match c.kind with
  | .Triangle0 =>
    some ⟨c.origin, c.origin + (Cell.DIM_X2, 0), c.origin + ((0 : K), Cell.DIM_X2)⟩
  | .Triangle90 =>
    some ⟨c.origin, c.origin + (Cell.DIM_X2, 0), c.origin + (Cell.DIM_X2, Cell.DIM_X2)⟩
  | .Triangle180 =>
    some ⟨c.origin, c.origin + ((0 : K), Cell.DIM_X2), c.origin + (-Cell.DIM_X2, Cell.DIM_X2)⟩
  | .Triangle270 =>
    some ⟨c.origin, c.origin + (Cell.DIM_X2, Cell.DIM_X2), c.origin + ((0 : K), Cell.DIM_X2)⟩
  | _ => none

/-- The second `match` in `Cell::draw` (main.rs lines 422-430): the
rectangle shape of a block-kind cell, `None` for triangles. -/
def Cell.blockShape (c : Cell) : Option RectK :=
  match c.kind with
  | .VBlock => some (RectK.fromOriginSize c.origin (Cell.DIM, Cell.DIM_X2))
  | .HBlock => some (RectK.fromOriginSize c.origin (Cell.DIM_X2, Cell.DIM))
  | _ => none

/-- `Cell::draw` (main.rs lines 388-442): fill the triangle shape if any and
remember its inscribed-circle center; fill the block rectangle if any and
remember its center; then fill a white circle of radius `Cell::RADIUS` at
the remembered center. -/
def Cell.draw (c : Cell) (scene : Scene) : Scene :=
  let center := ptZero
  let sc :=
    match Cell.triShape c with
    | some t => (Scene.fill scene c.affine c.color (Shape.tri t), t.inscribedCenter)
    | none => (scene, center)
  let sc :=
    match Cell.blockShape c with
    | some r => (Scene.fill sc.1 c.affine c.color (Shape.rect r), r.center)
    | none => sc
  Scene.fill sc.1 c.affine Color.white (Shape.circle sc.2 Cell.RADIUS)

/-- A player quadrant (`Player` in the source). -/
structure Player where
  color : Color
  affine : Affine
deriving DecidableEq

/-- `Player::DIMENSION = Cell::DIM * 17.0`. -/
def Player.DIMENSION : K := Cell.DIM * 17

/-- `Player::RADIUS = Cell::DIM * 0.6`. -/
def Player.RADIUS : K := Cell.DIM * K.ofRat (6 / 10)

/-- `Player::COLORS = [css::RED, css::YELLOW, css::BLUE, css::GREEN]`. -/
def Player.COLORS : List Color := [.red, .yellow, .blue, .green]

/-- `Player::new`. -/
def Player.new (color : Color) (affine : Affine) : Player := ⟨color, affine⟩

/-- `Player::color`: `COLORS[index % COLORS.len()]`. The index is always in
bounds after the modulus, so the `getD` default is never reached. -/
def Player.color? (index : ℕ) : Color :=
  Player.COLORS.getD (index % Player.COLORS.length) .red

/-- The `players` array built at the start of `Player::create_scene`
(main.rs lines 201-218). -/
def Player.players : List Player :=
  [Player.new (Player.COLORS.getD 0 .red) Affine.IDENTITY,
   Player.new (Player.COLORS.getD 1 .red)
     ((Affine.rotate (1 / 2)).thenTranslate (Player.DIMENSION, 0)),
   Player.new (Player.COLORS.getD 2 .red)
     ((Affine.rotate 1).thenTranslate (Player.DIMENSION, Player.DIMENSION)),
   Player.new (Player.COLORS.getD 3 .red)
     ((Affine.rotate (3 / 2)).thenTranslate ((0 : K), Player.DIMENSION))]

/-- The `cells` vector built for player `i` inside the loop of
`Player::create_scene` (main.rs lines 220-292), with the running origin and
color index threaded exactly as in the source. -/
def playerCells (i : ℕ) (p : Player) : List Cell :=
  let origin : PtK := (Cell.DIM_X2, Cell.DIM_X4)
  let colorIndex := i + Player.COLORS.length - 1
  let cells := [Cell.new .Triangle180 (Player.color? colorIndex) p.affine origin]
  let colorIndex := colorIndex + 1
  let cells := cells ++ [Cell.new .VBlock (Player.color? colorIndex) p.affine origin]
  let origin := origin + (Cell.DIM, 0)
  let colorIndex := colorIndex + 1
  let cells := cells ++ [Cell.new .VBlock (Player.color? colorIndex) p.affine origin]
  let origin := origin + (Cell.DIM, 0)
  let colorIndex := colorIndex + 1
  let cells := cells ++ [Cell.new .Triangle270 (Player.color? colorIndex) p.affine origin]
  let colorIndex := colorIndex + 1
  let cells := cells ++ [Cell.new .Triangle90 (Player.color? colorIndex) p.affine origin]
  let origin := origin + ((0 : K), -Cell.DIM)
  let colorIndex := colorIndex + 1
  let cells := cells ++ [Cell.new .HBlock (Player.color? colorIndex) p.affine origin]
  let origin := origin + ((0 : K), -Cell.DIM)
  let colorIndex := colorIndex + 1
  let cells := cells ++ [Cell.new .HBlock (Player.color? colorIndex) p.affine origin]
  let origin := origin + (Cell.DIM_X2, -Cell.DIM_X2)
  let colorIndex := colorIndex + 1
  let cells := cells ++ [Cell.new .Triangle180 (Player.color? colorIndex) p.affine origin]
  let st := (List.range 5).foldl
    (fun (st : List Cell × PtK × ℕ) _ =>
      let colorIndex := st.2.2 + 1
      let cells := st.1 ++ [Cell.new .VBlock (Player.color? colorIndex) p.affine st.2.1]
      let origin := st.2.1 + (Cell.DIM, 0)
      (cells, origin, colorIndex))
    (cells, origin, colorIndex)
  st.1

/-- `Player::draw` (main.rs lines 303-384): the quadrant decoration — the
colored square background, four large white home circles, two stroked black
boundary paths, the filled-and-stroked arrow path, and six white finish-lane
circles, in source order. -/
def Player.draw (p : Player) (scene : Scene) : Scene :=
  let scene := Scene.fill scene p.affine p.color
    (Shape.rect (RectK.fromOriginSize ptZero (Cell.DIM_X4, Cell.DIM_X4)))
  let q : PtK := (Cell.DIM, Cell.DIM)
  let scene :=
    [q, q + ((0 : K), Cell.DIM_X2), q + (Cell.DIM_X2, (0 : K)),
     q + (Cell.DIM_X2, Cell.DIM_X2)].foldl
      (fun s center =>
        Scene.fill s p.affine Color.white (Shape.circle center Player.RADIUS))
      scene
  let p0 : PtK := ((0 : K), Cell.DIM_X4 + Cell.DIM_X2)
  let p1 := p0 + (Cell.DIM_X2, -Cell.DIM_X2)
  let p2 := p1 + (Cell.DIM_X2, (0 : K))
  let p3 := p2 + ((0 : K), -Cell.DIM_X2)
  let p4 := p3 + (Cell.DIM_X2, -Cell.DIM_X2)
  let p5 := p4 + (Cell.DIM * 5, (0 : K))
  let scene := Scene.stroke scene 5 p.affine Color.black
    (Shape.path [.moveTo p0, .lineTo p1, .lineTo p2, .lineTo p3, .lineTo p4, .lineTo p5])
  let q0 : PtK := (Cell.DIM_X2, Cell.DIM_X4 + Cell.DIM_X2)
  let q1 := q0 + (Cell.DIM_X4, (0 : K))
  let q2 := q1 + ((0 : K), -Cell.DIM_X4)
  let q3 := q2 + (Cell.DIM * 5, (0 : K))
  let scene := Scene.stroke scene 5 p.affine Color.black
    (Shape.path [.moveTo q0, .lineTo q1, .lineTo q2, .lineTo q3])
  let r0 : PtK := (Cell.DIM_X2, Cell.DIM_X4 * 2)
  let r1 := r0 + (Cell.DIM * 5, (0 : K))
  let r2 := r1 - ((0 : K), Cell.DIM)
  let r3 := r2 + (Cell.DIM * K.ofRat (3 / 2), Cell.DIM * K.ofRat (3 / 2))
  let r4 := r2 + ((0 : K), Cell.DIM * 3)
  let r5 := r4 - ((0 : K), Cell.DIM)
  let r6 := r5 - (Cell.DIM * 5, (0 : K))
  let arrow : List PathEl :=
    [.moveTo r0, .lineTo r1, .lineTo r2, .lineTo r3, .lineTo r4, .lineTo r5,
     .lineTo r6, .closePath]
  let scene := Scene.fill scene p.affine p.color (Shape.path arrow)
  let scene := Scene.stroke scene 5 p.affine Color.black (Shape.path arrow)
  let s0 : PtK := (Cell.DIM * K.ofRat (5 / 2), Cell.DIM * K.ofRat (17 / 2))
  let st := (List.range 6).foldl
    (fun (st : Scene × PtK) _ =>
      (Scene.fill st.1 p.affine Color.white (Shape.circle st.2 Cell.RADIUS),
       st.2 + (Cell.DIM, 0)))
    (scene, s0)
  st.1

/-- `Player::create_scene` (main.rs lines 199-299): for each player in
order, draw its 13 cells, then its decoration, into one scene; always
returns `Ok`. -/
def Player.create_scene : Except String Scene :=
  let scene : Scene := []
  let scene := Player.players.enum.foldl
    (fun scene ip =>
      let cells := playerCells ip.1 ip.2
      let scene := cells.foldl (fun s c => Cell.draw c s) scene
      Player.draw ip.2 scene)
    scene
  Except.ok scene

/-- The cell list of player `i` as emitted by `create_scene` (empty for an
out-of-range index, which `create_scene` never uses). -/
def cellsAt (i : ℕ) : List Cell :=
  match Player.players[i]? with
  | some p => playerCells i p
  | none => []

/-- The draw commands contributed by player `i`'s cells alone. -/
def cellCmdsAt (i : ℕ) : Scene :=
  (cellsAt i).foldl (fun s c => Cell.draw c s) []

/-- The draw commands contributed by player `i`'s decoration alone. -/
def decorCmdsAt (i : ℕ) : Scene :=
  match Player.players[i]? with
  | some p => Player.draw p []
  | none => []

/-- Rust `u32::next_multiple_of` as a function on ℕ: the smallest multiple
of `m` that is `≥ a` (for `m ≠ 0`; Rust panics on overflow, which the
theorems exclude by hypothesis). -/
def nextMultipleOf (a m : ℕ) : ℕ :=
  if a % m = 0 then a else a + (m - a % m)

/-- The readback stride (main.rs line 83):
`(width * 4).next_multiple_of(256)`, with the `u32` multiplication wrapping
modulo 2^32. -/
def strideOf (width : ℕ) : ℕ :=
  nextMultipleOf (width * 4 % 2 ^ 32) 256

/-- The packed-readback loop (main.rs lines 117-121): for each row in
`0..height` in increasing order, append the `width * 4` bytes of the mapped
buffer starting at offset `row * stride`. -/
def packRows (data : List ℕ) (width height stride : ℕ) : List ℕ :=
  (List.range height).foldl
    (fun bytes row => bytes ++ (data.drop (row * stride)).take (width * 4)) []

/-- Rust `u32 → usize` conversion via `TryInto` on a 64-bit host: succeeds
exactly when the value fits in a `usize`. -/
def tryIntoUsize (x : ℕ) : Option ℕ :=
  if x < 2 ^ 64 then some x else none

/-- The scene `create_scene` emits (its `Ok` payload; the error branch is
never taken). -/
def emittedScene : Scene :=
  match Player.create_scene with
  | .ok s => s
  | .error _ => []

/-- Spec-side description of a cell's base shape, for comparison with the
code: a triangle spanning two sides of a `DIM_X2` square for the four
triangle kinds, a `DIM × DIM_X2` or `DIM_X2 × DIM` rectangle for the two
block kinds. -/
def specCellBaseShape (c : Cell) : Shape :=
  match c.kind with
  | .Triangle0 =>
    .tri ⟨c.origin, c.origin + (Cell.DIM_X2, 0), c.origin + ((0 : K), Cell.DIM_X2)⟩
  | .Triangle90 =>
    .tri ⟨c.origin, c.origin + (Cell.DIM_X2, 0), c.origin + (Cell.DIM_X2, Cell.DIM_X2)⟩
  | .Triangle180 =>
    .tri ⟨c.origin, c.origin + ((0 : K), Cell.DIM_X2), c.origin + (-Cell.DIM_X2, Cell.DIM_X2)⟩
  | .Triangle270 =>
    .tri ⟨c.origin, c.origin + (Cell.DIM_X2, Cell.DIM_X2), c.origin + ((0 : K), Cell.DIM_X2)⟩
  | .VBlock => .rect (RectK.fromOriginSize c.origin (Cell.DIM, Cell.DIM_X2))
  | .HBlock => .rect (RectK.fromOriginSize c.origin (Cell.DIM_X2, Cell.DIM))

/-- Spec-side description of a cell's marker-circle center: the inscribed
circle center of the base shape when it is a triangle, the rectangle center
when it is a block. -/
def specCellMarkerCenter (c : Cell) : PtK :=
  match specCellBaseShape c with
  | .tri t => t.inscribedCenter
  | .rect r => r.center
  | _ => ptZero

/-! Helper lemmas about the readback packing loop. -/

theorem packRows_zero (data : List ℕ) (w s : ℕ) : packRows data w 0 s = [] := rfl

theorem packRows_succ (data : List ℕ) (w s h : ℕ) :
    packRows data w (h + 1) s =
      packRows data w h s ++ (data.drop (h * s)).take (w * 4) := by
  unfold packRows
  rw [List.range_succ, List.foldl_append]
  rfl

/-- One row's byte range stays inside the `stride × height` allocation. -/
theorem row_slice_bound (w s row h : ℕ) (hw : w * 4 ≤ s) (hr : row < h) :
    row * s + w * 4 ≤ s * h := calc
  row * s + w * 4 ≤ row * s + s := Nat.add_le_add_left hw _
  _ = (row + 1) * s := by ring
  _ ≤ h * s := Nat.mul_le_mul_right s hr
  _ = s * h := Nat.mul_comm h s

theorem packRows_length (data : List ℕ) (w s : ℕ) (hw : w * 4 ≤ s) :
    ∀ h, s * h ≤ data.length → (packRows data w h s).length = h * (w * 4) := by
  intro h
  induction h with
  | zero => intro _; simp [packRows_zero]
  | succ n ih =>
    intro hd
    have hsn : s * n ≤ data.length := le_trans (Nat.mul_le_mul_left s (Nat.le_succ n)) hd
    have hrow : n * s + w * 4 ≤ data.length :=
      le_trans (row_slice_bound w s n (n + 1) hw (Nat.lt_succ_self n)) hd
    rw [packRows_succ, List.length_append, ih hsn, List.length_take, List.length_drop]
    have : w * 4 ≤ data.length - n * s := by omega
    rw [min_eq_left this]
    ring

theorem packRows_getElem (data : List ℕ) (w s : ℕ) (hw : w * 4 ≤ s) :
    ∀ h row j, s * h ≤ data.length → row < h → j < w * 4 →
      (packRows data w h s)[row * (w * 4) + j]? = data[row * s + j]? := by
  intro h
  induction h with
  | zero => intro row j _ hr _; omega
  | succ n ih =>
    intro row j hd hr hj
    have hsn : s * n ≤ data.length := le_trans (Nat.mul_le_mul_left s (Nat.le_succ n)) hd
    have hlen : (packRows data w n s).length = n * (w * 4) := packRows_length data w s hw n hsn
    rw [packRows_succ]
    rcases Nat.lt_or_ge row n with hlt | hge
    · rw [List.getElem?_append_left]
      · exact ih row j hsn hlt hj
      · rw [hlen]
        calc row * (w * 4) + j < row * (w * 4) + w * 4 := by omega
        _ = (row + 1) * (w * 4) := by ring
        _ ≤ n * (w * 4) := Nat.mul_le_mul_right _ hlt
    · have hrow : row = n := by omega
      subst hrow
      rw [List.getElem?_append_right (by rw [hlen]; omega)]
      rw [hlen]
      have hidx : row * (w * 4) + j - row * (w * 4) = j := by omega
      rw [hidx, List.getElem?_take_of_lt hj, List.getElem?_drop]

/-- The stride arithmetic facts, assuming the `u32` computation of
`(width * 4).next_multiple_of(256)` neither wraps nor panics. -/
theorem strideOf_spec (width : ℕ) (hw : width * 4 + 255 < 2 ^ 32) :
    width * 4 ≤ strideOf width ∧ strideOf width % 256 = 0 ∧
      strideOf width - width * 4 < 256 := by
  unfold strideOf nextMultipleOf
  have h4 : width * 4 < 2 ^ 32 := by omega
  rw [Nat.mod_eq_of_lt h4]
  split <;> omega

/-! The claims. -/

/-- C1: every player's emitted home-path sequence has exactly 13 cells, and
the k-th cell (k = 0..12) carries color `palette[(i + 3 + k) mod 4]` with
`palette = [red, yellow, blue, green]` — the running color index starts at
`i + paletteSize - 1` and is incremented by one before each later cell. -/
theorem C1_home_path_colors :
    Player.COLORS = [.red, .yellow, .blue, .green] ∧
      ∀ i : Fin 4, (cellsAt i.val).length = 13 ∧
        ∀ k : Fin 13, ((cellsAt i.val)[k.val]?).map Cell.color =
          some (Player.COLORS.getD ((i.val + 3 + k.val) % 4) .red) := by
  decide

/-- C2 counterexample: for player 0 the Triangle(270°) cell (index 3) does
NOT sit at the origin of the immediately preceding VerticalBlock (index 2):
the block is at (384, 512) while the triangle is at (512, 512), because the
origin is advanced once more between the two; in particular the triangle is
not at the claimed point (384, 512). -/
theorem C2_origin_counterexample :
    ((cellsAt 0)[2]?).map (fun c => (c.kind, c.origin)) =
        some (.VBlock, ((384 : K), (512 : K))) ∧
      ((cellsAt 0)[3]?).map (fun c => (c.kind, c.origin)) =
        some (.Triangle270, ((512 : K), (512 : K))) ∧
      (((512 : K), (512 : K)) : PtK) ≠ (((384 : K), (512 : K)) : PtK) := by
  decide

/-- C2 amended: in every player's cell sequence the origin is advanced by
(+CellSize, 0) before the second VerticalBlock and advanced by
(+CellSize, 0) once more between that VerticalBlock and the Triangle(270°);
with CellSize = 128 the VerticalBlock sits at (384, 512) and the
Triangle(270°) at (512, 512). -/
theorem C2_triangle270_origin (i : Fin 4) :
    ((cellsAt i.val)[1]?).map (fun c => (c.kind, c.origin)) =
        some (.VBlock, ((256 : K), (512 : K))) ∧
      ((cellsAt i.val)[2]?).map (fun c => (c.kind, c.origin)) =
        some (.VBlock, ((384 : K), (512 : K))) ∧
      ((cellsAt i.val)[3]?).map (fun c => (c.kind, c.origin)) =
        some (.Triangle270, ((512 : K), (512 : K))) := by
  revert i; decide

/-- C3: the stride is the next multiple of 256 of `width * 4` (so it is at
least `width * 4`, divisible by 256, and exceeds `width * 4` by less than
256), and the packed output copies, for each row in increasing order,
exactly `width * 4` bytes from offset `row * stride` of the mapped buffer,
yielding a `width * height * 4`-byte buffer, top row first, no padding. -/
theorem C3_stride_readback (width height : ℕ) (hw : width * 4 + 255 < 2 ^ 32)
    (data : List ℕ) (hd : data.length = strideOf width * height) :
    width * 4 ≤ strideOf width ∧ strideOf width % 256 = 0 ∧
      strideOf width - width * 4 < 256 ∧
      (packRows data width height (strideOf width)).length = width * height * 4 ∧
      ∀ row j, row < height → j < width * 4 →
        (packRows data width height (strideOf width))[row * (width * 4) + j]? =
          data[row * strideOf width + j]? := by
  obtain ⟨h1, h2, h3⟩ := strideOf_spec width hw
  have hlen : strideOf width * height ≤ data.length := le_of_eq hd.symm
  refine ⟨h1, h2, h3, ?_, ?_⟩
  · rw [packRows_length data width (strideOf width) h1 height hlen]
    ring
  · intro row j hr hj
    exact packRows_getElem data width (strideOf width) h1 height row j hlen hr hj

/-- C3 witness at the spec's own edge case, width 64 (stride exactly 256). -/
theorem C3_stride_readback_witness :
    64 * 4 ≤ strideOf 64 ∧ strideOf 64 % 256 = 0 ∧
      strideOf 64 - 64 * 4 < 256 ∧
      (packRows (List.replicate 256 0) 64 1 (strideOf 64)).length = 64 * 1 * 4 ∧
      ∀ row j, row < 1 → j < 64 * 4 →
        (packRows (List.replicate 256 0) 64 1 (strideOf 64))[row * (64 * 4) + j]? =
          (List.replicate 256 0)[row * strideOf 64 + j]? :=
  C3_stride_readback 64 1 (by decide) (List.replicate 256 0) (by decide)

/-- C4: the emitted scene is, in order, player 0's cell commands, then
player 0's decoration commands, then the same for players 1, 2 and 3: for
each player all cell draws precede all decoration draws, and all of player
N's commands precede all of player N+1's. -/
theorem C4_painting_order :
    Player.create_scene = .ok emittedScene ∧
      emittedScene =
        cellCmdsAt 0 ++ decorCmdsAt 0 ++ (cellCmdsAt 1 ++ decorCmdsAt 1) ++
          (cellCmdsAt 2 ++ decorCmdsAt 2) ++ (cellCmdsAt 3 ++ decorCmdsAt 3) :=
  ⟨rfl, by decide⟩

/-- C5: the first cell emitted for player 0 is a 180°-triangle under the
identity transform whose vertices, in local coordinates, are exactly
(256, 512), (256, 768) and (0, 768). -/
theorem C5_first_cell_geometry :
    Cell.DIM = (128 : K) ∧
      ((cellsAt 0).head?).map (fun c => (c.kind, c.affine, Cell.triShape c)) =
        some (.Triangle180, Affine.IDENTITY,
          some ⟨((256 : K), (512 : K)), ((256 : K), (768 : K)),
            ((0 : K), (768 : K))⟩) := by
  decide

/-- C6: drawing any cell appends exactly two commands to the scene — the
base shape filled with the cell's color, then a white circle of radius
`0.35 × CellSize` whose center is the triangle's inscribed-circle center
for triangle kinds and the rectangle's center for block kinds. -/
theorem C6_cell_draw_marker (c : Cell) (s : Scene) :
    Cell.draw c s =
      s ++ [DrawCmd.fill c.affine c.color (specCellBaseShape c),
        DrawCmd.fill c.affine Color.white
          (Shape.circle (specCellMarkerCenter c) (Cell.DIM * K.ofRat (35 / 100)))] := by
  obtain ⟨k, color, affine, origin⟩ := c
  cases k <;>
    simp [Cell.draw, Cell.triShape, Cell.blockShape, specCellBaseShape,
      specCellMarkerCenter, Scene.fill, Cell.RADIUS]

/-- C7: exactly 4 players are constructed, with colors red, yellow, blue,
green and transforms identity; rotate 90° (π/2) then translate
(BoardDimension, 0); rotate 180° (π) then translate
(BoardDimension, BoardDimension); rotate 270° (3π/2) then translate
(0, BoardDimension) — where BoardDimension = CellSize × 17 = 2176. -/
theorem C7_players :
    Player.players.length = 4 ∧
      Player.players.map Player.color = [.red, .yellow, .blue, .green] ∧
      Player.players.map Player.affine =
        [Affine.IDENTITY,
         (Affine.rotate (1 / 2)).thenTranslate ((2176 : K), (0 : K)),
         (Affine.rotate 1).thenTranslate ((2176 : K), (2176 : K)),
         (Affine.rotate (3 / 2)).thenTranslate ((0 : K), (2176 : K))] ∧
      Player.DIMENSION = Cell.DIM * 17 := by
  decide

/-- C8: scene generation is deterministic — any two successful runs of the
generator produce the same scene. -/
theorem C8_deterministic (s₁ s₂ : Scene)
    (h₁ : Player.create_scene = .ok s₁) (h₂ : Player.create_scene = .ok s₂) :
    s₁ = s₂ := by
  rw [h₁] at h₂
  exact Except.ok.inj h₂

/-- C8 witness: both hypotheses hold of the actually emitted scene. -/
theorem C8_deterministic_witness : emittedScene = emittedScene :=
  C8_deterministic emittedScene emittedScene rfl rfl

/-- C9: `create_scene` always returns `Ok`; its error branch is
unreachable. -/
theorem C9_infallible : ∃ s, Player.create_scene = Except.ok s :=
  ⟨emittedScene, rfl⟩

/-- C10: each row's byte range `[row * stride, row * stride + width * 4)`
stays inside the `stride * height`-byte mapped buffer whenever
`width * 4 ≤ stride`, and at the fixed dimensions 2176 × 2176 the
u32-to-usize conversions of the capacity and of every row offset succeed,
so the conversion-error branch is unreachable. -/
theorem C10_inbounds_conversions (width height stride row : ℕ)
    (hs : width * 4 ≤ stride) (hr : row < height) :
    row * stride + width * 4 ≤ stride * height ∧
      tryIntoUsize (2176 * 2176 * 4) = some (2176 * 2176 * 4) ∧
      ∀ r, r < 2176 → tryIntoUsize (r * strideOf 2176) = some (r * strideOf 2176) := by
  refine ⟨row_slice_bound width stride row height hs hr, by decide, ?_⟩
  intro r hrlt
  have hstride : strideOf 2176 = 8704 := by decide
  rw [hstride]
  unfold tryIntoUsize
  have : r * 8704 < 2 ^ 64 := by
    calc r * 8704 ≤ 2175 * 8704 := Nat.mul_le_mul_right 8704 (by omega)
    _ < 2 ^ 64 := by decide
  rw [if_pos this]

/-- C10 witness at the program's dimensions. -/
theorem C10_inbounds_conversions_witness :
    0 * 8704 + 2176 * 4 ≤ 8704 * 2176 ∧
      tryIntoUsize (2176 * 2176 * 4) = some (2176 * 2176 * 4) ∧
      ∀ r, r < 2176 → tryIntoUsize (r * strideOf 2176) = some (r * strideOf 2176) :=
  C10_inbounds_conversions 2176 2176 8704 0 (by decide) (by decide)

end Flight

